import Mathlib

set_option maxRecDepth 100000

/-!
# Verification of the Salling Group food-waste clearance renderer

Shallow embedding of `src/food_waste_search.py` (the data-normalization and
multi-format rendering pipeline) and proofs of the frozen claims about it.

Modelling conventions:
* Python `str` is modelled as Lean `String`; character-level helpers work on
  `List Char` (`String.data`).
* JSON numbers (prices, stock, discounts) are modelled as exact rationals `ℚ`;
  Python float formatting (`:.1f`, `:.2f`) is modelled as exact decimal
  rounding half-to-even, which agrees with CPython on the decimally exact
  values exercised here.
* A raised Python exception (`KeyError` on a missing dict field, `ValueError`
  from `strptime` / the `datetime` constructor) is modelled by `Option`:
  `none` means the operation raised and produced no output.
* File writes are modelled by returning the list of `(path, content)` pairs a
  function writes, in order; the external Jinja template and the HTML-to-PDF
  engine are parameters (`String → String`).
-/

/-! ## Python string primitives -/

/-- `isPrefixL sep s` : `sep` is a leading substring of `s` (Boolean). -/
def isPrefixL : List Char → List Char → Bool
  | [], _ => true
  | _ :: _, [] => false
  | a :: as, b :: bs => a == b && isPrefixL as bs

/-- Python `sub in s` (substring containment). -/
def containsSub : List Char → List Char → Bool
  | [], sub => isPrefixL sub []
  | c :: t, sub => isPrefixL sub (c :: t) || containsSub t sub

/-- The suffix of `s` after the first occurrence of `sep` (`none` if `sep`
does not occur in `s`). -/
def afterFirst (sep : List Char) : List Char → Option (List Char)
  | [] => if sep.isEmpty then some [] else none
  | c :: t =>
    if isPrefixL sep (c :: t) then some (List.drop sep.length (c :: t))
    else afterFirst sep t

/-- The chars of `s` before the first occurrence of `sep` (all of `s` if
`sep` does not occur). -/
def upToFirst (sep : List Char) : List Char → List Char
  | [] => []
  | c :: t => if isPrefixL sep (c :: t) then [] else c :: upToFirst sep t

/-- Fuel-driven worker for Python `str.split` on a non-empty separator. -/
def pySplitF (sep : List Char) : Nat → List Char → List (List Char)
  | 0, s => [s]
  | fuel + 1, s =>
    match afterFirst sep s with
    | none => [s]
    | some rest => upToFirst sep s :: pySplitF sep fuel rest

/-- Python `s.split(sep)` for a non-empty separator `sep`: the pieces of `s`
between consecutive non-overlapping occurrences of `sep`.  Each split step
consumes at least one character, so fuel `s.length + 1` always suffices. -/
def pySplit (sep s : List Char) : List (List Char) := pySplitF sep (s.length + 1) s

/-- Number of positions of `s` at which `sub` starts (used to count the
`"### "` clearance headings of the Markdown output). -/
def countSub (sub : List Char) : List Char → Nat
  | [] => if isPrefixL sub [] then 1 else 0
  | c :: t => (if isPrefixL sub (c :: t) then 1 else 0) + countSub sub t

/-- Python `str.lower` restricted to ASCII (all unit codes and URLs handled
by the program are ASCII, where Python and ASCII lowercasing agree). -/
def asciiLowerChar (c : Char) : Char :=
  if 65 ≤ c.toNat ∧ c.toNat ≤ 90 then
    Char.ofNat (c.toNat + 32)
  else c

/-- Python `str.lower` on strings (ASCII fragment). -/
def asciiLower (s : String) : String := ⟨s.data.map asciiLowerChar⟩

/-! ## Image URL normalizer (`get_optimized_image_url`, source lines 117-139) -/

/-- The canonical optimized-asset domain (source line 122). -/
def canonDomain : List Char := "digitalassets.sallinggroup.com".data

/-- The legacy asset-service domain (source line 128). -/
def damDomain : List Char := "dam.dsg.dk".data

/-- The fixed prefix of every optimized image URL built at source line 137. -/
def canonPrefix : List Char :=
  "https://digitalassets.sallinggroup.com/image/upload/e_trim/c_limit,e_sharpen:80,f_auto,q_auto,w_400,h_400/".data

/-- The separator `'/id/'` of source line 131. -/
def idSep : List Char := "/id/".data

/-- The separator `'/'` of source line 131. -/
def slashSep : List Char := "/".data

theorem idSep_eq : idSep = ['/', 'i', 'd', '/'] := rfl

theorem slashSep_eq : slashSep = ['/'] := rfl

theorem idSep_ne : idSep ≠ [] := by decide

theorem slashSep_ne : slashSep ≠ [] := by decide

/-- Character-level body of `get_optimized_image_url`.  Mirrors the source:
empty input returns empty; a URL containing the canonical domain is returned
unchanged; for `dam.dsg.dk` URLs the asset id is
`original_url.split('/id/')[1].split('/')[0]` (the `[1]` raising `IndexError`
when `'/id/'` is absent, caught by the `except IndexError: return
original_url`); a truthy (non-empty) asset id yields the canonical rebuild,
anything else returns the input unchanged. -/
def optimizeChars (u : List Char) : List Char :=
  if u = [] then []
  else if containsSub u canonDomain then u
  else if containsSub u damDomain then
    match (pySplit idSep u).get? 1 with
    | none => u
    | some chunk =>
      match (pySplit slashSep chunk).get? 0 with
      | none => u
      | some a => if a = [] then u else canonPrefix ++ a
  else u

/-- `get_optimized_image_url` on Lean strings. -/
def get_optimized_image_url (original_url : String) : String :=
  ⟨optimizeChars original_url.data⟩

/-- "The first path segment following `/id/`": the characters after the first
occurrence of `/id/` up to the next `/` (or to the end).  This is the
spec-level description of the asset-id extraction; `extract_eq_firstSeg`
below proves it coincides with the source's
`split('/id/')[1].split('/')[0]`. -/
def firstSegAfterId (u : List Char) : Option (List Char) :=
  (afterFirst idSep u).map (upToFirst slashSep)

/-! ### Lemmas about the string primitives -/

theorem isPrefixL_self_append (p s : List Char) : isPrefixL p (p ++ s) = true := by
  induction p with
  | nil => rfl
  | cons c t ih => simp [isPrefixL, ih]

theorem containsSub_nilsep : ∀ s : List Char, containsSub s [] = true
  | [] => rfl
  | _ :: _ => by simp [containsSub, isPrefixL]

theorem containsSub_append_mid (p m s : List Char) :
    containsSub (p ++ m ++ s) m = true := by
  induction p with
  | nil =>
    cases m with
    | nil => exact containsSub_nilsep s
    | cons c t =>
      have h1 : isPrefixL (c :: t) (c :: (t ++ s)) = true := isPrefixL_self_append (c :: t) s
      simp only [List.nil_append, List.cons_append, containsSub, List.append_eq, h1,
        Bool.true_or]
  | cons c t ih =>
    simp only [List.cons_append, containsSub, List.append_eq, ih, Bool.or_true]

theorem afterFirst_none_upToFirst {sep s : List Char}
    (h : afterFirst sep s = none) : upToFirst sep s = s := by
  induction s with
  | nil => rfl
  | cons c t ih =>
    by_cases hp : isPrefixL sep (c :: t) = true
    · simp [afterFirst, hp] at h
    · simp only [afterFirst, hp] at h
      simp [upToFirst, hp, ih h]

theorem afterFirst_nil_of_ne {sep : List Char} (h : sep ≠ []) :
    afterFirst sep [] = none := by
  simp [afterFirst, List.isEmpty_iff, h]

/-- With at least one unit of fuel, the head chunk of a split is the prefix
before the first separator occurrence. -/
theorem pySplitF_get_zero (sep : List Char) (f : Nat) (s : List Char) :
    (pySplitF sep (f + 1) s).get? 0 = some (upToFirst sep s) := by
  show (match afterFirst sep s with
    | none => [s]
    | some rest => upToFirst sep s :: pySplitF sep f rest).get? 0 = some (upToFirst sep s)
  cases h : afterFirst sep s with
  | none =>
    rw [afterFirst_none_upToFirst h]
    rfl
  | some rest => rfl

/-- Python `s.split(sep)[0]`: the chunk before the first occurrence. -/
theorem pySplit_get_zero (sep s : List Char) :
    (pySplit sep s).get? 0 = some (upToFirst sep s) :=
  pySplitF_get_zero sep s.length s

/-- Python `s.split(sep)[1]`: the chunk between the first occurrence of `sep`
and the next one (`IndexError`, i.e. `none`, exactly when `sep` does not
occur in `s`).  Requires `sep ≠ []` (true of both separators used). -/
theorem pySplit_get_one {sep : List Char} (hsep : sep ≠ []) (s : List Char) :
    (pySplit sep s).get? 1 = (afterFirst sep s).map (upToFirst sep) := by
  show (match afterFirst sep s with
    | none => [s]
    | some rest => upToFirst sep s :: pySplitF sep s.length rest).get? 1 =
      (afterFirst sep s).map (upToFirst sep)
  cases h : afterFirst sep s with
  | none => rfl
  | some rest =>
    have hs : s ≠ [] := by
      intro hnil
      rw [hnil, afterFirst_nil_of_ne hsep] at h
      exact Option.noConfusion h
    obtain ⟨c, t, rfl⟩ := List.exists_cons_of_ne_nil hs
    show (pySplitF sep (t.length + 1) rest).get? 0 = some (upToFirst sep rest)
    exact pySplitF_get_zero sep t.length rest

theorem upToFirst_cons_pos {sep : List Char} {c : Char} {t : List Char}
    (h : isPrefixL sep (c :: t) = true) : upToFirst sep (c :: t) = [] := by
  simp [upToFirst, h]

theorem upToFirst_cons_neg {sep : List Char} {c : Char} {t : List Char}
    (h : ¬ isPrefixL sep (c :: t) = true) :
    upToFirst sep (c :: t) = c :: upToFirst sep t := by
  simp [upToFirst, h]

theorem isPrefixL_cons_head {a c : Char} {as t : List Char}
    (h : isPrefixL (a :: as) (c :: t) = true) : a = c := by
  simp only [isPrefixL, Bool.and_eq_true, beq_iff_eq] at h
  exact h.1

theorem isPrefixL_slash_cons (t : List Char) :
    isPrefixL slashSep ('/' :: t) = true := by
  rw [slashSep_eq]
  simp [isPrefixL]

/-- Truncating at the next `/id/` before truncating at the next `/` changes
nothing, because `/id/` itself starts with `/`. -/
theorem upToFirst_slash_id (s : List Char) :
    upToFirst slashSep (upToFirst idSep s) = upToFirst slashSep s := by
  induction s with
  | nil => rfl
  | cons c t ih =>
    by_cases hp : isPrefixL idSep (c :: t) = true
    · have hc : '/' = c := isPrefixL_cons_head (idSep_eq ▸ hp)
      rw [upToFirst_cons_pos hp, ← hc, upToFirst_cons_pos (isPrefixL_slash_cons t)]
      rfl
    · rw [upToFirst_cons_neg hp]
      by_cases hc : c = '/'
      · subst hc
        rw [upToFirst_cons_pos (isPrefixL_slash_cons t),
          upToFirst_cons_pos (isPrefixL_slash_cons (upToFirst idSep t))]
      · have h1 : ¬ isPrefixL slashSep (c :: t) = true := by
          rw [slashSep_eq]
          simp [isPrefixL, beq_iff_eq]
          intro hcc
          exact hc hcc.symm
        have h2 : ¬ isPrefixL slashSep (c :: upToFirst idSep t) = true := by
          rw [slashSep_eq]
          simp [isPrefixL, beq_iff_eq]
          intro hcc
          exact hc hcc.symm
        rw [upToFirst_cons_neg h2, upToFirst_cons_neg h1, ih]

/-- The source's `split('/id/')[1].split('/')[0]` equals the spec-level
"first path segment following `/id/`". -/
theorem extract_eq_firstSeg (u : List Char) :
    ((pySplit idSep u).get? 1).bind (fun chunk => (pySplit slashSep chunk).get? 0) =
      firstSegAfterId u := by
  rw [pySplit_get_one idSep_ne u]
  cases h : afterFirst idSep u with
  | none => simp [firstSegAfterId, h]
  | some rest =>
    show (pySplit slashSep (upToFirst idSep rest)).get? 0 = firstSegAfterId u
    rw [pySplit_get_zero, upToFirst_slash_id]
    simp [firstSegAfterId, h]

/-! ### Characterization of the normalizer -/

/-- What follows the canonical domain inside `canonPrefix`. -/
def canonSuffix : List Char :=
  "/image/upload/e_trim/c_limit,e_sharpen:80,f_auto,q_auto,w_400,h_400/".data

theorem canonPrefix_decomp :
    canonPrefix = "https://".data ++ canonDomain ++ canonSuffix := rfl

theorem optimizeChars_canon {u : List Char} (h : containsSub u canonDomain = true) :
    optimizeChars u = u := by
  have hne : u ≠ [] := by
    intro hnil
    rw [hnil] at h
    exact absurd h (by decide)
  simp [optimizeChars, hne, h]

theorem optimizeChars_build {u : List Char} (h0 : u ≠ [])
    (hc : containsSub u canonDomain = false) (hd : containsSub u damDomain = true)
    {a : List Char} (hseg : firstSegAfterId u = some a) (ha : a ≠ []) :
    optimizeChars u = canonPrefix ++ a := by
  have hext := extract_eq_firstSeg u
  rw [hseg] at hext
  cases h1 : (pySplit idSep u).get? 1 with
  | none => rw [h1] at hext; exact absurd hext (by simp)
  | some chunk =>
    rw [h1] at hext
    have h2 : (pySplit slashSep chunk).get? 0 = some a := hext
    have hcc : ¬ containsSub u canonDomain = true := by rw [hc]; simp
    rw [List.get?_eq_getElem?] at h1 h2
    simp [optimizeChars, h0, hcc, hd, h1, h2, ha]

theorem optimizeChars_unchanged {u : List Char} (h0 : u ≠ [])
    (hc : containsSub u canonDomain = false)
    (h : containsSub u damDomain = false ∨ firstSegAfterId u = none ∨
      firstSegAfterId u = some []) :
    optimizeChars u = u := by
  have hcc : ¬ containsSub u canonDomain = true := by rw [hc]; simp
  rcases h with hd | hseg | hseg
  · have hdd : ¬ containsSub u damDomain = true := by rw [hd]; simp
    simp [optimizeChars, h0, hcc, hdd]
  · have hext := extract_eq_firstSeg u
    rw [hseg] at hext
    cases h1 : (pySplit idSep u).get? 1 with
    | some chunk =>
      rw [h1] at hext
      have h2 : (pySplit slashSep chunk).get? 0 = none := hext
      rw [pySplit_get_zero] at h2
      exact absurd h2 (by simp)
    | none =>
      rw [List.get?_eq_getElem?] at h1
      by_cases hd : containsSub u damDomain = true
      · simp [optimizeChars, h0, hcc, hd, h1]
      · simp [optimizeChars, h0, hcc, hd]
  · have hext := extract_eq_firstSeg u
    rw [hseg] at hext
    cases h1 : (pySplit idSep u).get? 1 with
    | none => rw [h1] at hext; exact absurd hext (by simp)
    | some chunk =>
      rw [h1] at hext
      have h2 : (pySplit slashSep chunk).get? 0 = some [] := hext
      rw [List.get?_eq_getElem?] at h1 h2
      by_cases hd : containsSub u damDomain = true
      · simp [optimizeChars, h0, hcc, hd, h1, h2]
      · simp [optimizeChars, h0, hcc, hd]

/-- Range invariant of the normalizer body: the result is the input itself,
or the fixed canonical prefix followed by the non-empty first path segment
after `/id/`. -/
theorem optimizeChars_shape (u : List Char) :
    optimizeChars u = u ∨
      ∃ a, a ≠ [] ∧ firstSegAfterId u = some a ∧ optimizeChars u = canonPrefix ++ a := by
  by_cases h0 : u = []
  · left
    rw [h0]
    rfl
  by_cases hc : containsSub u canonDomain = true
  · left
    exact optimizeChars_canon hc
  have hc2 : containsSub u canonDomain = false := by
    cases h : containsSub u canonDomain with
    | true => exact absurd h hc
    | false => rfl
  by_cases hd : containsSub u damDomain = true
  · cases hseg : firstSegAfterId u with
    | none => left; exact optimizeChars_unchanged h0 hc2 (Or.inr (Or.inl hseg))
    | some a =>
      by_cases ha : a = []
      · left
        rw [ha] at hseg
        exact optimizeChars_unchanged h0 hc2 (Or.inr (Or.inr hseg))
      · right
        exact ⟨a, ha, rfl, optimizeChars_build h0 hc2 hd hseg ha⟩
  · left
    have hd2 : containsSub u damDomain = false := by
      cases h : containsSub u damDomain with
      | true => exact absurd h hd
      | false => rfl
    exact optimizeChars_unchanged h0 hc2 (Or.inl hd2)

/-- The canonical rebuild always contains the canonical domain. -/
theorem containsSub_canonPrefix_append (a : List Char) :
    containsSub (canonPrefix ++ a) canonDomain = true := by
  rw [canonPrefix_decomp, List.append_assoc]
  exact containsSub_append_mid _ _ _

theorem optimizeChars_idem (u : List Char) :
    optimizeChars (optimizeChars u) = optimizeChars u := by
  cases optimizeChars_shape u with
  | inl h =>
    rw [h]
    exact h
  | inr h =>
    obtain ⟨a, _, _, heq⟩ := h
    rw [heq]
    exact optimizeChars_canon (containsSub_canonPrefix_append a)

/-- Claim C6: `normalizeImageUrl` maps empty input to the empty string,
returns URLs on the canonical optimized-asset domain unchanged, rewrites
legacy `dam.dsg.dk` URLs with a non-empty first path segment after `/id/`
to the canonical optimized URL built from that asset id, and returns every
other URL unchanged (total, never failing). -/
theorem c6_normalizer_spec :
    (get_optimized_image_url "" = "") ∧
    (∀ url : String, containsSub url.data canonDomain = true →
      get_optimized_image_url url = url) ∧
    (∀ url : String, ∀ a : List Char, url.data ≠ [] →
      containsSub url.data canonDomain = false →
      containsSub url.data damDomain = true →
      firstSegAfterId url.data = some a → a ≠ [] →
      get_optimized_image_url url = ⟨canonPrefix ++ a⟩) ∧
    (∀ url : String, url.data ≠ [] →
      containsSub url.data canonDomain = false →
      (containsSub url.data damDomain = false ∨ firstSegAfterId url.data = none ∨
        firstSegAfterId url.data = some []) →
      get_optimized_image_url url = url) := by
  refine ⟨rfl, ?_, ?_, ?_⟩
  · intro url h
    exact congrArg String.mk (optimizeChars_canon h)
  · intro url a h0 hc hd hseg ha
    exact congrArg String.mk (optimizeChars_build h0 hc hd hseg ha)
  · intro url h0 hc h
    exact congrArg String.mk (optimizeChars_unchanged h0 hc h)

/-- Witness for C6: the spec's legacy example is rewritten onto the canonical
domain with asset id `ABC123`, and the empty string maps to itself. -/
theorem c6_witness :
    get_optimized_image_url "https://dam.dsg.dk/services/assets.img/id/ABC123/foo" =
      "https://digitalassets.sallinggroup.com/image/upload/e_trim/c_limit,e_sharpen:80,f_auto,q_auto,w_400,h_400/ABC123" ∧
    get_optimized_image_url "" = "" := by
  constructor
  · have hc := c6_normalizer_spec.2.2.1
      "https://dam.dsg.dk/services/assets.img/id/ABC123/foo" "ABC123".data
      (by decide) (by decide) (by decide) (by decide) (by decide)
    rw [hc]
    rfl
  · exact c6_normalizer_spec.1

/-- Claim C7: `normalizeImageUrl` is idempotent, and an already-canonical URL
is returned unchanged. -/
theorem c7_normalize_idempotent :
    (∀ x : String,
      get_optimized_image_url (get_optimized_image_url x) = get_optimized_image_url x) ∧
    (∀ url : String, containsSub url.data canonDomain = true →
      get_optimized_image_url url = url) := by
  constructor
  · intro x
    exact congrArg String.mk (optimizeChars_idem x.data)
  · intro url h
    exact congrArg String.mk (optimizeChars_canon h)

/-- Witness for C7: idempotence and canonical-fixity evaluated at the spec's
concrete legacy URL and at a canonical URL. -/
theorem c7_witness :
    get_optimized_image_url
        (get_optimized_image_url "https://dam.dsg.dk/services/assets.img/id/ABC123/foo") =
      get_optimized_image_url "https://dam.dsg.dk/services/assets.img/id/ABC123/foo" ∧
    get_optimized_image_url "https://digitalassets.sallinggroup.com/image/upload/x" =
      "https://digitalassets.sallinggroup.com/image/upload/x" :=
  ⟨c7_normalize_idempotent.1 _, c7_normalize_idempotent.2 _ (by decide)⟩

/-- Claim C10: range invariant of the normalizer: the result is either the
input URL completely unchanged, or the fixed canonical prefix followed by the
non-empty asset id extracted from the input (the first path segment after
`/id/`); no other output shape is possible. -/
theorem c10_normalizer_range (url : String) :
    get_optimized_image_url url = url ∨
      ∃ a : List Char, a ≠ [] ∧ firstSegAfterId url.data = some a ∧
        get_optimized_image_url url = ⟨canonPrefix ++ a⟩ := by
  cases optimizeChars_shape url.data with
  | inl h =>
    left
    exact congrArg String.mk h
  | inr h =>
    obtain ⟨a, ha, hseg, heq⟩ := h
    right
    exact ⟨a, ha, hseg, congrArg String.mk heq⟩

/-! ## Numeric rendering primitives -/

/-- Decimal digit to its ASCII character. -/
def digitChar : Nat → Char
  | 0 => '0'
  | 1 => '1'
  | 2 => '2'
  | 3 => '3'
  | 4 => '4'
  | 5 => '5'
  | 6 => '6'
  | 7 => '7'
  | 8 => '8'
  | 9 => '9'
  | _ => '*'

/-- Fuel-driven decimal digit list of a natural number (most significant
first).  Fuel `n + 1` always suffices since a number has at most `n + 1`
digits. -/
def natToDigitsF : Nat → Nat → List Char
  | 0, _ => []
  | fuel + 1, n =>
    if n < 10 then [digitChar n]
    else natToDigitsF fuel (n / 10) ++ [digitChar (n % 10)]

/-- Decimal digits of a natural number. -/
def natToDigits (n : Nat) : List Char := natToDigitsF (n + 1) n

/-- Python `str` of a natural number. -/
def natToStr (n : Nat) : String := ⟨natToDigits n⟩

/-- Python `str` of an integer. -/
def intToStr (i : Int) : String := (if i < 0 then "-" else "") ++ natToStr i.natAbs

/-- Python `int()` on a numeric value: truncation toward zero.  (Core `Rat`
operations are used throughout the numeric layer so that every definition
evaluates by kernel reduction.) -/
def pyTrunc (q : ℚ) : Int := if q < 0 then -((Rat.neg q).floor) else q.floor

/-- Round the fraction `a / b` (`b > 0`) to the nearest integer, ties to even
(the rounding CPython's fixed-point float formatting applies to the decimal
value; exact for the decimally exact values this program handles).  The
fractional part `a / b - (a / b).floor` is compared with `1/2` by
cross-multiplying with the positive denominator; `Int.fdiv` is floor
division. -/
def roundHalfEvenInt (a : Int) (b : Nat) : Int :=
  if 2 * (a - a.fdiv b * b) < (b : Int) then a.fdiv b
  else if (b : Int) < 2 * (a - a.fdiv b * b) then a.fdiv b + 1
  else if a.fdiv b % 2 = 0 then a.fdiv b else a.fdiv b + 1

/-- Two-digit zero-padded rendering of `n < 100`. -/
def pad2 (n : Nat) : String := ⟨[digitChar (n / 10 % 10), digitChar (n % 10)]⟩

/-- Four-digit zero-padded rendering of `n < 10000`. -/
def pad4 (n : Nat) : String :=
  ⟨[digitChar (n / 1000 % 10), digitChar (n / 100 % 10), digitChar (n / 10 % 10),
    digitChar (n % 10)]⟩

/-- Python `f"{x:.2f}"`: the value rounded to two decimal places (ties to
even), rendered with exactly two fractional digits.  (Negative values close
to zero would print `-0.00` in CPython; all values formatted this way by the
program — stock quantities — are nonnegative.) -/
def fmtFixed2 (q : ℚ) : String :=
  (if roundHalfEvenInt (100 * q.num) q.den < 0 then "-" else "") ++
    natToStr ((roundHalfEvenInt (100 * q.num) q.den).natAbs / 100) ++ "." ++
    pad2 ((roundHalfEvenInt (100 * q.num) q.den).natAbs % 100)

/-- Python `f"{x:.1f}"`: one fractional digit, ties to even. -/
def fmtFixed1 (q : ℚ) : String :=
  (if roundHalfEvenInt (10 * q.num) q.den < 0 then "-" else "") ++
    natToStr ((roundHalfEvenInt (10 * q.num) q.den).natAbs / 10) ++ "." ++
    ⟨[digitChar ((roundHalfEvenInt (10 * q.num) q.den).natAbs % 10)]⟩

/-- `k`-digit zero-padded rendering (most significant first). -/
def padDigits (k m : Nat) : String :=
  ⟨(List.range k).reverse.map (fun i => digitChar (m / 10 ^ i % 10))⟩

/-- Python `str` of a JSON number (used for the raw price interpolations
`{offer["originalPrice"]}` / `{offer["newPrice"]}`): an integer prints
without a decimal point, a decimal fraction with its minimal number of
fractional digits.  (A whole-number JSON *float* such as `25.0` would print
as `25.0` in Python; the rational model cannot distinguish it from the
integer `25`, which is how whole JSON numbers parse.) -/
def pyNumRepr (q : ℚ) : String :=
  if q.den = 1 then intToStr q.num
  else
    match (List.range 40).find? (fun k => 10 ^ k % q.den = 0) with
    | some k =>
      (if q < 0 then "-" else "") ++
        natToStr (q.num.natAbs * (10 ^ k / q.den) / 10 ^ k) ++ "." ++
        padDigits k (q.num.natAbs * (10 ^ k / q.den) % 10 ^ k)
    | none => intToStr q.num ++ "/" ++ natToStr q.den

/-! ## Unit formatter (`format_stock`, source lines 88-103) -/

/-- The `unit_translations` dict lookup of source lines 91-97:
`unit_translations.get(unit.lower(), unit)` returns `none` here when the
lowercased code is not a key (the caller then falls back to the raw code). -/
def unit_translations (u : String) : Option String :=
  if u = "each" then some "stk."
  else if u = "kg" then some "kg"
  else if u = "g" then some "g"
  else none

/-- `format_stock` (source lines 88-103).  `stock` is numeric in every call,
so the `isinstance` check is always true; `int()` truncates toward zero and
`:.2f` renders two decimals.  The repeated
`(unit_translations (asciiLower unit)).getD unit` inlines the local
`danish_unit`. -/
def format_stock (stock : ℚ) (unit : String) : String :=
  if asciiLower ((unit_translations (asciiLower unit)).getD unit) = "kg" then
    fmtFixed2 stock ++ " " ++ (unit_translations (asciiLower unit)).getD unit
  else
    intToStr (pyTrunc stock) ++ " " ++ (unit_translations (asciiLower unit)).getD unit

theorem digitChar_isDigit_of_lt {n : Nat} (h : n < 10) : (digitChar n).isDigit = true := by
  interval_cases n <;> decide

/-- Claim C4: `formatStock` returns `"<value> <unit>"` where the unit code is
looked up case-insensitively in `{"each"→"stk.", "kg"→"kg", "g"→"g"}` with
unknown codes passed through unchanged, the value is rendered with exactly
two decimal places when the resolved unit is `kg` and truncated to an
integer otherwise; in particular `formatStock(2.5,"kg") = "2.50 kg"`,
`formatStock(3,"each") = "3 stk."` and `formatStock(3,"EACH") = "3 stk."`. -/
theorem c4_format_stock_spec :
    (∀ (q : ℚ) (u : String), asciiLower u = "each" →
      format_stock q u = intToStr (pyTrunc q) ++ " " ++ "stk.") ∧
    (∀ (q : ℚ) (u : String), asciiLower u = "kg" →
      format_stock q u = fmtFixed2 q ++ " " ++ "kg") ∧
    (∀ (q : ℚ) (u : String), asciiLower u = "g" →
      format_stock q u = intToStr (pyTrunc q) ++ " " ++ "g") ∧
    (∀ (q : ℚ) (u : String), asciiLower u ≠ "each" → asciiLower u ≠ "kg" →
      asciiLower u ≠ "g" → format_stock q u = intToStr (pyTrunc q) ++ " " ++ u) ∧
    (∀ q : ℚ, ∃ (pre : String) (a b : Char),
      fmtFixed2 q = pre ++ "." ++ ⟨[a, b]⟩ ∧ a.isDigit = true ∧ b.isDigit = true) ∧
    format_stock (Rat.divInt 5 2) "kg" = "2.50 kg" ∧
    format_stock 3 "each" = "3 stk." ∧
    format_stock 3 "EACH" = "3 stk." := by
  refine ⟨?_, ?_, ?_, ?_, ?_, by decide, by decide, by decide⟩
  · intro q u h
    have e1 : unit_translations "each" = some "stk." := rfl
    have e2 : asciiLower "stk." = "stk." := rfl
    have e3 : ¬ (("stk." : String) = "kg") := by decide
    simp [format_stock, h, e1, e2, e3]
  · intro q u h
    have e1 : unit_translations "kg" = some "kg" := rfl
    have e2 : asciiLower "kg" = "kg" := rfl
    simp [format_stock, h, e1, e2]
  · intro q u h
    have e1 : unit_translations "g" = some "g" := rfl
    have e2 : asciiLower "g" = "g" := rfl
    have e3 : ¬ (("g" : String) = "kg") := by decide
    simp [format_stock, h, e1, e2, e3]
  · intro q u h1 h2 h3
    have e1 : unit_translations (asciiLower u) = none := by
      simp [unit_translations, h1, h2, h3]
    simp [format_stock, e1, h2]
  · intro q
    refine ⟨(if roundHalfEvenInt (100 * q.num) q.den < 0 then "-" else "") ++
        natToStr ((roundHalfEvenInt (100 * q.num) q.den).natAbs / 100),
      digitChar ((roundHalfEvenInt (100 * q.num) q.den).natAbs % 100 / 10 % 10),
      digitChar ((roundHalfEvenInt (100 * q.num) q.den).natAbs % 100 % 10), rfl, ?_, ?_⟩
    · exact digitChar_isDigit_of_lt (Nat.mod_lt _ (by norm_num))
    · exact digitChar_isDigit_of_lt (Nat.mod_lt _ (by norm_num))

/-- Witness for C4: the case-insensitive lookup clauses applied at concrete
inputs `(3, "EACH")` and `(2.5, "KG")`. -/
theorem c4_witness :
    format_stock 3 "EACH" = intToStr (pyTrunc 3) ++ " " ++ "stk." ∧
    format_stock (Rat.divInt 5 2) "KG" = fmtFixed2 (Rat.divInt 5 2) ++ " " ++ "kg" :=
  ⟨c4_format_stock_spec.1 3 "EACH" (by decide),
   c4_format_stock_spec.2.1 (Rat.divInt 5 2) "KG" (by decide)⟩

/-! ## Timestamp formatter (`format_datetime`, source lines 75-86)

`format_datetime` parses with
`datetime.strptime(timestamp_str, "%Y-%m-%dT%H:%M:%S.%fZ")`, attaches UTC,
converts to `Europe/Copenhagen` and renders `"%d/%m/%Y kl. %H:%M"`.

CPython's `strptime` compiles the format to a regex (with `IGNORECASE`, so
the literals `T` and `Z` also match `t`/`z`) in which `%Y` is exactly four
digits, `%m` is `1[0-2]|0[1-9]|[1-9]`, `%d` is `3[01]|[12]\d|0[1-9]|[1-9]`,
`%H` is `2[0-3]|[0-1]\d|\d`, `%M`/`%S` are `[0-5]\d|\d` and `%f` is one to
six digits; the whole string must be consumed.  Because every numeric field
here is followed by a non-digit literal (or the end of the string), a field
matches exactly when the maximal digit run at that position has one of the
accepted length/value combinations.  The `datetime` constructor then
validates the civil date (year at least 1, day within the month), raising
`ValueError` - the same exception as a parse failure - otherwise. -/

/-- One component set of the parsed timestamp. -/
structure TsParts where
  year : Nat
  month : Nat
  day : Nat
  hour : Nat
  minute : Nat
  second : Nat
  micro : Nat
deriving DecidableEq

/-- Maximal leading digit run of a string and the remainder. -/
def digitSpan : List Char → List Char × List Char
  | [] => ([], [])
  | c :: t =>
    if c.isDigit then
      match digitSpan t with
      | (run, rest) => (c :: run, rest)
    else ([], c :: t)

/-- Decimal value of a digit run. -/
def digitsVal (l : List Char) : Nat := l.foldl (fun acc c => 10 * acc + (c.toNat - 48)) 0

/-- Parse one numeric `strptime` field: accept the maximal digit run when
`ok` holds of its length and value, returning value, length and remainder. -/
def parseNumField (ok : Nat → Nat → Bool) (s : List Char) :
    Option (Nat × Nat × List Char) :=
  match digitSpan s with
  | (run, rest) =>
    if ok run.length (digitsVal run) then some (digitsVal run, run.length, rest) else none

/-- Accepted length/value combinations of `%Y`. -/
def okY (len _v : Nat) : Bool := len == 4

/-- Accepted length/value combinations of `%m`. -/
def okMonth (len v : Nat) : Bool :=
  (len == 2 && decide (1 ≤ v ∧ v ≤ 12)) || (len == 1 && decide (1 ≤ v ∧ v ≤ 9))

/-- Accepted length/value combinations of `%d`. -/
def okDay (len v : Nat) : Bool :=
  (len == 2 && decide (1 ≤ v ∧ v ≤ 31)) || (len == 1 && decide (1 ≤ v ∧ v ≤ 9))

/-- Accepted length/value combinations of `%H`. -/
def okHour (len v : Nat) : Bool := (len == 2 && decide (v ≤ 23)) || len == 1

/-- Accepted length/value combinations of `%M` and `%S`. -/
def okMinSec (len v : Nat) : Bool := (len == 2 && decide (v ≤ 59)) || len == 1

/-- Accepted lengths of `%f`: one to six fractional digits. -/
def okFrac (len _v : Nat) : Bool := decide (1 ≤ len ∧ len ≤ 6)

/-- Consume one literal character. -/
def parseLit (c : Char) : List Char → Option (List Char)
  | [] => none
  | d :: t => if d == c then some t else none

/-- Consume one literal letter case-insensitively (the format regex is
compiled with `IGNORECASE`). -/
def parseLitCI (lo up : Char) : List Char → Option (List Char)
  | [] => none
  | d :: t => if d == lo || d == up then some t else none

/-- Proleptic-Gregorian leap year. -/
def isLeap (y : Nat) : Bool := y % 4 == 0 && (y % 100 != 0 || y % 400 == 0)

/-- Days in a month (the `datetime` constructor's day validation). -/
def daysInMonth (y m : Nat) : Nat :=
  if m == 2 then (if isLeap y then 29 else 28)
  else if m == 4 || m == 6 || m == 9 || m == 11 then 30 else 31

/-- `datetime.strptime(s, "%Y-%m-%dT%H:%M:%S.%fZ")` followed by the
`datetime` constructor's validation; `none` models `ValueError`.  `%f` with
`k` digits scales to `v * 10^(6-k)` microseconds as CPython does. -/
def pyStrptimeTs (s0 : List Char) : Option TsParts :=
  match parseNumField okY s0 with
  | none => none
  | some (y, _, s1) =>
  match parseLit '-' s1 with
  | none => none
  | some s2 =>
  match parseNumField okMonth s2 with
  | none => none
  | some (mo, _, s3) =>
  match parseLit '-' s3 with
  | none => none
  | some s4 =>
  match parseNumField okDay s4 with
  | none => none
  | some (d, _, s5) =>
  match parseLitCI 't' 'T' s5 with
  | none => none
  | some s6 =>
  match parseNumField okHour s6 with
  | none => none
  | some (h, _, s7) =>
  match parseLit ':' s7 with
  | none => none
  | some s8 =>
  match parseNumField okMinSec s8 with
  | none => none
  | some (mi, _, s9) =>
  match parseLit ':' s9 with
  | none => none
  | some s10 =>
  match parseNumField okMinSec s10 with
  | none => none
  | some (se, _, s11) =>
  match parseLit '.' s11 with
  | none => none
  | some s12 =>
  if 1 ≤ y then
    if d ≤ daysInMonth y mo then
      match parseNumField okFrac s12 with
      | none => none
      | some (f, flen, s13) =>
        match parseLitCI 'z' 'Z' s13 with
        | none => none
        | some s14 =>
          if s14.isEmpty then some ⟨y, mo, d, h, mi, se, f * 10 ^ (6 - flen)⟩ else none
    else none
  else none

/-- Days since 0000-03-01 of a proleptic-Gregorian civil date (standard
era-based conversion; all quantities stay nonnegative for years 1-9999,
month shifted so the leap day ends the year). -/
def daysFromCivil (y m d : Nat) : Nat :=
  (if m ≤ 2 then y - 1 else y) / 400 * 146097 +
    ((if m ≤ 2 then y - 1 else y) % 400 * 365 +
      (if m ≤ 2 then y - 1 else y) % 400 / 4 -
      (if m ≤ 2 then y - 1 else y) % 400 / 100 +
      ((153 * ((m + 9) % 12) + 2) / 5 + (d - 1)))

/-- Inverse of `daysFromCivil`: the civil date of a day count. -/
def civilFromDays (z : Nat) : Nat × Nat × Nat :=
  let doe := z % 146097
  let yoe := (doe - doe / 1460 + doe / 36524 - doe / 146096) / 365
  let doy := doe - (365 * yoe + yoe / 4 - yoe / 100)
  let mp := (5 * doy + 2) / 153
  let d := doy - (153 * mp + 2) / 5 + 1
  let m := if mp < 10 then mp + 3 else mp - 9
  (z / 146097 * 400 + yoe + (if m ≤ 2 then 1 else 0), m, d)

/-- Day of month of the last Sunday of a 31-day month (`0000-03-01` was a
Wednesday and day counts repeat mod 7 every 400-year era, so
`(days + 3) % 7` is the weekday with Sunday = 0). -/
def lastSundayDay (y month : Nat) : Nat := 31 - (daysFromCivil y month 31 + 3) % 7

/-- UTC offset of `Europe/Copenhagen` in minutes at a parsed UTC instant
(year, month, day, hour, minute; seconds and microseconds cannot move an
instant across a transition, which happens on a whole hour): `+02:00` from
the last Sunday of March 01:00 UTC to the last Sunday of October 01:00 UTC,
`+01:00` otherwise.  This is the EU daylight-saving rule the tz database
applies to this zone for every year since 1996, the era the program's
timestamps live in. -/
def cphOffsetMinutes (y mo d hh mi : Nat) : Nat :=
  if daysFromCivil y 3 (lastSundayDay y 3) * 1440 + 60 ≤
      daysFromCivil y mo d * 1440 + hh * 60 + mi ∧
    daysFromCivil y mo d * 1440 + hh * 60 + mi <
      daysFromCivil y 10 (lastSundayDay y 10) * 1440 + 60
  then 120 else 60

/-- Shift a UTC instant (year, month, day, hour, minute) to Copenhagen local
time and render it in the Danish style `"%d/%m/%Y kl. %H:%M"`. -/
def renderCph (y mo d hh mi : Nat) : String :=
  match civilFromDays ((daysFromCivil y mo d * 1440 + hh * 60 +
      mi + cphOffsetMinutes y mo d hh mi) / 1440) with
  | (yy, mm, dd) =>
    pad2 dd ++ "/" ++ pad2 mm ++ "/" ++ pad4 yy ++ " kl. " ++
      pad2 ((daysFromCivil y mo d * 1440 + hh * 60 +
        mi + cphOffsetMinutes y mo d hh mi) % 1440 / 60) ++ ":" ++
      pad2 ((daysFromCivil y mo d * 1440 + hh * 60 +
        mi + cphOffsetMinutes y mo d hh mi) % 60)

/-- `format_datetime` (source lines 75-86): parse, convert, render;
`none` models the propagated `ValueError` (the spec's ParseError). -/
def format_datetime (timestamp_str : String) : Option String :=
  (pyStrptimeTs timestamp_str.data).map
    (fun p => renderCph p.year p.month p.day p.hour p.minute)

theorem digitSpan_append_of_digits {fr : List Char} (hd : ∀ c ∈ fr, c.isDigit = true)
    {z : Char} (hz : z.isDigit = false) (r : List Char) :
    digitSpan (fr ++ z :: r) = (fr, z :: r) := by
  induction fr with
  | nil => simp [digitSpan, hz]
  | cons a t ih =>
    have ha : a.isDigit = true := hd a (by simp)
    have ht : ∀ c ∈ t, c.isDigit = true := fun c hc => hd c (by simp [hc])
    simp [digitSpan, ha, ih ht]

/-- Parsing the concrete prefix `2024-06-01T10:00:00.` reduces the parser to
its fractional-seconds tail. -/
theorem pyStrptimeTs_front (s : List Char) :
    pyStrptimeTs ("2024-06-01T10:00:00.".data ++ s) =
      (match parseNumField okFrac s with
      | none => none
      | some (f, flen, s13) =>
        match parseLitCI 'z' 'Z' s13 with
        | none => none
        | some s14 =>
          if s14.isEmpty then some ⟨2024, 6, 1, 10, 0, 0, f * 10 ^ (6 - flen)⟩
          else none) := rfl

theorem parseNumField_frac {fr : List Char} (h1 : 1 ≤ fr.length) (h6 : fr.length ≤ 6)
    (hd : ∀ c ∈ fr, c.isDigit = true) :
    parseNumField okFrac (fr ++ "Z".data) = some (digitsVal fr, fr.length, "Z".data) := by
  have hspan : digitSpan (fr ++ 'Z' :: []) = (fr, ['Z']) :=
    digitSpan_append_of_digits hd (by decide) []
  simp only [parseNumField]
  rw [hspan]
  simp [okFrac, h1, h6]

theorem pyStrptimeTs_frac {fr : List Char} (h1 : 1 ≤ fr.length) (h6 : fr.length ≤ 6)
    (hd : ∀ c ∈ fr, c.isDigit = true) :
    pyStrptimeTs ("2024-06-01T10:00:00.".data ++ (fr ++ "Z".data)) =
      some ⟨2024, 6, 1, 10, 0, 0, digitsVal fr * 10 ^ (6 - fr.length)⟩ := by
  rw [pyStrptimeTs_front (fr ++ "Z".data), parseNumField_frac h1 h6 hd]
  rfl

/-- Claim C5 counterexample: the claim says `formatTimestamp` accepts exactly
the form `YYYY-MM-DDTHH:MM:SS.ffffffZ` (six fractional digits) and fails on
any other input, but the code accepts a single fractional digit: on
`2024-06-01T10:00:00.5Z` it succeeds and renders the converted time. -/
theorem c5_counterexample :
    format_datetime "2024-06-01T10:00:00.5Z" = some "01/06/2024 kl. 12:00" ∧
    format_datetime "2024-06-01T10:00:00.5Z" ≠ none := by
  refine ⟨by decide, by decide⟩

/-- Claim C5 (amended): `formatTimestamp` accepts UTC timestamps of the
shape `Y-M-DTH:M:S.fZ` with one to six fractional digits (so not only the
exactly-six-digit form; single-digit components and lowercase `t`/`z` are
also accepted) and fails with a ParseError otherwise, including on
out-of-range civil dates; on success it converts to Europe/Copenhagen with
the DST-dependent offset - a late-March instant gets +02:00 while a
late-October instant gets +01:00 - and renders `"DD/MM/YYYY kl. HH:MM"`. -/
theorem c5_format_datetime_spec :
    format_datetime "2024-06-01T10:00:00.000000Z" = some "01/06/2024 kl. 12:00" ∧
    (∀ fr : List Char, 1 ≤ fr.length → fr.length ≤ 6 → (∀ c ∈ fr, c.isDigit = true) →
      format_datetime ⟨"2024-06-01T10:00:00.".data ++ (fr ++ "Z".data)⟩ =
        some "01/06/2024 kl. 12:00") ∧
    format_datetime "2024-06-01T10:00:00.0000000Z" = none ∧
    format_datetime "2024-06-01T10:00:00Z" = none ∧
    format_datetime "2024-06-01 10:00:00.000000Z" = none ∧
    format_datetime "2024-02-30T10:00:00.000000Z" = none ∧
    format_datetime "2024-03-31T12:00:00.000000Z" = some "31/03/2024 kl. 14:00" ∧
    format_datetime "2024-10-27T12:00:00.000000Z" = some "27/10/2024 kl. 13:00" := by
  refine ⟨by decide, ?_, by decide, by decide, by decide, by decide, by decide, by decide⟩
  intro fr h1 h6 hd
  show (pyStrptimeTs (String.data ⟨"2024-06-01T10:00:00.".data ++ (fr ++ "Z".data)⟩)).map
      (fun p => renderCph p.year p.month p.day p.hour p.minute) =
    some "01/06/2024 kl. 12:00"
  rw [show String.data ⟨"2024-06-01T10:00:00.".data ++ (fr ++ "Z".data)⟩ =
    "2024-06-01T10:00:00.".data ++ (fr ++ "Z".data) from rfl]
  rw [pyStrptimeTs_frac h1 h6 hd]
  show some (renderCph 2024 6 1 10 0) = some "01/06/2024 kl. 12:00"
  decide

/-- Witness for C5: the fractional-leniency clause applied at the concrete
single-digit fraction `.5`. -/
theorem c5_witness :
    format_datetime ⟨"2024-06-01T10:00:00.".data ++ (['5'] ++ "Z".data)⟩ =
      some "01/06/2024 kl. 12:00" :=
  c5_format_datetime_spec.2.1 ['5'] (by decide) (by decide) (by decide)

/-! ## Renderer data model

The renderer works on the raw JSON dicts (the `Offer`/`Product`/`Clearance`
dataclasses of source lines 15-38 are never instantiated).  `description` is
read with `product['description']`, whose absence raises `KeyError`
(modelled as `Option`, the spec's ValidationError); `image` is read with
`product.get('image')`, whose absence yields falsy `None`.  The remaining
fields are modelled as present, which is the shape every claim probes. -/

/-- The `product` dict of a clearance. -/
structure RawProduct where
  description : Option String
  image : Option String
deriving DecidableEq

/-- The `offer` dict of a clearance (fields the renderer reads). -/
structure RawOffer where
  originalPrice : ℚ
  newPrice : ℚ
  currency : String
  percentDiscount : ℚ
  stock : ℚ
  stockUnit : String
  endTime : String
deriving DecidableEq

/-- One clearance record. -/
structure RawClearance where
  product : RawProduct
  offer : RawOffer
deriving DecidableEq

/-- The `address` sub-dict of a store. -/
structure StoreAddress where
  street : String
  zip : String
  city : String
deriving DecidableEq

/-- The `store` sub-dict. -/
structure StoreInfo where
  name : String
  address : StoreAddress
deriving DecidableEq

/-- One element of the API result: `{"store": {...}, "clearances": [...]}`. -/
structure StoreEntry where
  store : StoreInfo
  clearances : List RawClearance
deriving DecidableEq

/-- `Union[List[Dict], Dict]`: either the single-store dict shape or the
list-of-stores shape; every output function distinguishes them with
`isinstance(data, dict)`. -/
def ClearanceBatch := StoreEntry ⊕ List StoreEntry

/-- `if isinstance(data, dict): stores = [data] else: stores = data`
(source lines 160-163, 229-232 and 270-273). -/
def batchStores : ClearanceBatch → List StoreEntry
  | Sum.inl st => [st]
  | Sum.inr l => l

/-- Python truthiness of `product.get('image')`: present and non-empty. -/
def pyTruthyStrOpt : Option String → Bool
  | none => false
  | some s => !(s == "")

/-- `get_sort_key` (source lines 105-115): `float(stock) * 1000` for the
case-insensitive unit `kg`, the stock itself otherwise.  The product
`stock * 1000` is written as the exact rational `(1000 * num) / den` so the
key evaluates by kernel reduction. -/
def get_sort_key (clearance : RawClearance) : ℚ :=
  if asciiLower clearance.offer.stockUnit = "kg" then
    Rat.divInt (1000 * clearance.offer.stock.num) clearance.offer.stock.den
  else clearance.offer.stock

/-- Descending comparison on sort keys: `a` may precede `b`. -/
def rankDescLE (a b : RawClearance) : Prop := get_sort_key b ≤ get_sort_key a

instance : DecidableRel rankDescLE :=
  fun a b => inferInstanceAs (Decidable (get_sort_key b ≤ get_sort_key a))

instance : IsTotal RawClearance rankDescLE :=
  ⟨fun a b => (le_total (get_sort_key b) (get_sort_key a)).elim Or.inl Or.inr⟩

instance : IsTrans RawClearance rankDescLE :=
  ⟨fun _ _ _ hab hbc => le_trans hbc hab⟩

/-- `sorted(store['clearances'], key=get_sort_key, reverse=True)` (source
lines 171-173, 239-241, 280-282).  Python's `sorted` is the stable
descending sort, which is computed exactly by insertion sort under the total
preorder `rankDescLE` (ties keep input order). -/
def sortClearances (l : List RawClearance) : List RawClearance :=
  List.insertionSort rankDescLE l

/-- Concatenate the rendered pieces of a list, failing if any piece fails
(each piece is appended to the accumulator string in the source loops). -/
def concatMapM {α : Type} (f : α → Option String) : List α → Option String
  | [] => some ""
  | a :: l => do
    let s ← f a
    let rest ← concatMapM f l
    pure (s ++ rest)

/-- `image_url` of source lines 180-182: empty unless `product.get('image')`
is truthy, in which case the optimized URL. -/
def imageUrlOf (c : RawClearance) : String :=
  match c.product.image with
  | some im => if im = "" then "" else get_optimized_image_url im
  | none => ""

/-- The per-clearance HTML fragment of source lines 184-197 (non-ASCII
characters are the file's literal code points, written as escapes). -/
def htmlClearanceBlock (c : RawClearance) : Option String := do
  let desc ← c.product.description
  let validity ← format_datetime c.offer.endTime
  pure ("<div class=\"item\">\n" ++
    (if imageUrlOf c ≠ "" then
      "<img src=\"" ++ imageUrlOf c ++ "\"" ++ " alt=\"" ++ desc ++ "\" loading=\"lazy\">\n"
    else "<div style=\"width:100px;height:100px;background:#eee;\"></div>\n") ++
    "<div class=\"item-details\">\n" ++
    "<h3>" ++ desc ++ "</h3>\n" ++
    "<p class=\"price\"><span class=\"original-price\">" ++
      pyNumRepr c.offer.originalPrice ++ " " ++ c.offer.currency ++
      "</span> ‚Üí <strong>" ++ pyNumRepr c.offer.newPrice ++ " " ++
      c.offer.currency ++ "</strong></p>\n" ++
    "<p><span class=\"discount\">-" ++ fmtFixed1 c.offer.percentDiscount ++
      "%</span></p>\n" ++
    "<p class=\"stock\">üì¶ Beholdning: " ++
      format_stock c.offer.stock c.offer.stockUnit ++ "</p>\n" ++
    "<p class=\"valid-until\">‚è∞ Gyldig indtil: " ++ validity ++ "</p>\n" ++
    "</div>\n" ++
    "</div>\n")

/-- The per-store HTML fragment of source lines 165-199. -/
def storeHtml (st : StoreEntry) : Option String := do
  let items ← concatMapM htmlClearanceBlock (sortClearances st.clearances)
  pure ("<div class=\"store\">\n" ++
    "<h2>" ++ st.store.name ++ "</h2>\n" ++
    "<p><strong>Adresse:</strong> " ++ st.store.address.street ++ ", " ++
      st.store.address.zip ++ " " ++ st.store.address.city ++ "</p>\n" ++
    items ++ "</div>\n")

/-- The document header of source lines 155-158 (a triple-quoted f-string). -/
def htmlHeader (nowDisplay : String) : String :=
  "\n    <h1>Tilbud med kort holdbarhed</h1>\n    <p class=\"updated\">Opdateret: " ++
    nowDisplay ++ "</p>\n    "

/-- The full `html_content` value of `generate_outputs`. -/
def htmlContentOf (nowDisplay : String) (data : ClearanceBatch) : Option String := do
  let body ← concatMapM storeHtml (batchStores data)
  pure (htmlHeader nowDisplay ++ body)

/-- The files a render writes `(path, content)`, in order, plus the return
value of `generate_outputs`. -/
structure RenderedFiles where
  files : List (String × String)
  ret : String × String
deriving DecidableEq

/-- `generate_outputs` (source lines 141-217).  `template` is the external
Jinja template applied to the content, `pdfEngine` the HTML-to-PDF engine;
`nowStamp` is `datetime.now().strftime("%Y%m%d_%H%M")` and `nowDisplay`
`datetime.now().strftime('%d/%m/%Y kl. %H:%M')`.  Both files are written
only after the whole content is built, so a failure while rendering any
clearance produces no file at all. -/
def generate_outputs (template pdfEngine : String → String) (nowStamp nowDisplay : String)
    (data : ClearanceBatch) : Option RenderedFiles := do
  let content ← htmlContentOf nowDisplay data
  pure { files := [("output/tilbud_" ++ nowStamp ++ ".html", template content),
                   ("output/tilbud_" ++ nowStamp ++ ".pdf", pdfEngine (template content))],
         ret := ("output/tilbud_" ++ nowStamp ++ ".html",
                 "output/tilbud_" ++ nowStamp ++ ".pdf") }

/-- The per-clearance Markdown fragment of source lines 243-254.  Note the
image bullet interpolates the raw `product['image']`, not the optimized
URL. -/
def mdClearanceBlock (c : RawClearance) : Option String := do
  let desc ← c.product.description
  let validity ← format_datetime c.offer.endTime
  pure ("### " ++ desc ++ "\n" ++
    "- üí∞ ~~" ++ pyNumRepr c.offer.originalPrice ++ " " ++
      c.offer.currency ++ "~~ ‚Üí **" ++ pyNumRepr c.offer.newPrice ++ " " ++
      c.offer.currency ++ "**\n" ++
    "- üè∑Ô∏è Rabat: **" ++
      fmtFixed1 c.offer.percentDiscount ++ "%**\n" ++
    "- üì¶ Beholdning: " ++
      format_stock c.offer.stock c.offer.stockUnit ++ "\n" ++
    "- ‚è∞ Gyldig indtil: " ++ validity ++ "\n" ++
    (if pyTruthyStrOpt c.product.image then
      "- üñºÔ∏è " ++
        ("[Se billede](" ++ c.product.image.getD "" ++ ")") ++ "\n"
    else "") ++
    "\n---\n\n")

/-- The per-store Markdown fragment of source lines 234-254. -/
def storeMd (st : StoreEntry) : Option String := do
  let items ← concatMapM mdClearanceBlock (sortClearances st.clearances)
  pure ("## " ++ st.store.name ++ "\n" ++
    "**Adresse:** " ++ st.store.address.street ++ ", " ++ st.store.address.zip ++ " " ++
      st.store.address.city ++ "\n\n" ++ items)

/-- The Markdown document header of source lines 226-227. -/
def mdHeader (nowDisplay : String) : String :=
  "# Tilbud med kort holdbarhed\n\n" ++ "*Opdateret: " ++ nowDisplay ++ "*\n\n"

/-- `export_to_markdown` (source lines 219-260): returns the written
filename and the file content; a `None` filename argument falls back to the
timestamped default.  This function is a separate entry point: nothing in
the source calls it. -/
def export_to_markdown (filenameArg : Option String) (nowStamp nowDisplay : String)
    (data : ClearanceBatch) : Option (String × String) := do
  let body ← concatMapM storeMd (batchStores data)
  pure (filenameArg.getD ("tilbud_" ++ nowStamp ++ ".md"), mdHeader nowDisplay ++ body)

/-- The per-clearance console block of source lines 284-292 (each `print(x)`
contributes `x ++ "\n"`). -/
def textClearanceBlock (c : RawClearance) : Option String := do
  let desc ← c.product.description
  let validity ← format_datetime c.offer.endTime
  pure ("\n- " ++ desc ++ "\n" ++
    "  Oprindelig pris: " ++ pyNumRepr c.offer.originalPrice ++ " " ++
      c.offer.currency ++ "\n" ++
    "  Ny pris: " ++ pyNumRepr c.offer.newPrice ++ " " ++ c.offer.currency ++ "\n" ++
    "  Rabat: " ++ fmtFixed1 c.offer.percentDiscount ++ "%\n" ++
    "  Beholdning: " ++ format_stock c.offer.stock c.offer.stockUnit ++ "\n" ++
    "  Gyldig indtil: " ++ validity ++ "\n")

/-- The per-store console transcript of source lines 275-292. -/
def storeText (st : StoreEntry) : Option String := do
  let items ← concatMapM textClearanceBlock (sortClearances st.clearances)
  pure ("\nButik: " ++ st.store.name ++ "\n" ++
    "Adresse: " ++ st.store.address.street ++ ", " ++ st.store.address.zip ++ " " ++
      st.store.address.city ++ "\n" ++
    "\nTilbud (sorteret efter st√∏rst beholdning):\n" ++ items)

/-- `print_clearances` (source lines 262-292): generates the HTML and PDF
outputs, then prints the file paths and the per-store transcript.  It never
calls `export_to_markdown`. -/
def print_clearances (template pdfEngine : String → String) (nowStamp nowDisplay : String)
    (data : ClearanceBatch) : Option (String × RenderedFiles) := do
  let gen ← generate_outputs template pdfEngine nowStamp nowDisplay data
  let body ← concatMapM storeText (batchStores data)
  pure ("\nOutput filer genereret:\n" ++
    "- HTML: " ++ gen.ret.1 ++ "\n" ++
    "- PDF: " ++ gen.ret.2 ++ "\n" ++ body, gen)

/-! ## Sample data for concrete evaluations -/

/-- The legacy image URL of the kg sample clearance. -/
def sampleImageUrl : String := "https://dam.dsg.dk/services/assets.img/id/ABC123/foo"

/-- The `product` of the kg sample clearance. -/
def productKg : RawProduct := { description := some "Beef", image := some sampleImageUrl }

/-- The `offer` of the kg sample clearance: 2.5 kg at 24.95 → 12.48 DKK. -/
def offerKg : RawOffer :=
  { originalPrice := Rat.divInt 2495 100
    newPrice := Rat.divInt 1248 100
    currency := "DKK"
    percentDiscount := 50
    stock := Rat.divInt 5 2
    stockUnit := "kg"
    endTime := "2024-06-01T10:00:00.000000Z" }

/-- A clearance of 2.5 kg beef with a legacy image URL. -/
def cKg : RawClearance := { product := productKg, offer := offerKg }

/-- The `offer` of the each sample clearance: 500 pieces. -/
def offerEach : RawOffer :=
  { originalPrice := Rat.divInt 1095 100
    newPrice := Rat.divInt 550 100
    currency := "DKK"
    percentDiscount := Rat.divInt 498 10
    stock := 500
    stockUnit := "each"
    endTime := "2024-06-01T10:00:00.000000Z" }

/-- A clearance of 500 pieces of milk, no image. -/
def cEach : RawClearance :=
  { product := { description := some "Milk", image := none }, offer := offerEach }

/-- A malformed clearance: `product['description']` is missing. -/
def cBad : RawClearance :=
  { product := { description := none, image := none }, offer := offerEach }

/-- The `store` info of the sample store. -/
def sampleStoreInfo : StoreInfo :=
  { name := "Netto"
    address := { street := "Storegade 1", zip := "8000", city := "Aarhus" } }

/-- One store holding the `each` clearance before the `kg` clearance (the
`kg` one ranks higher: key 2500 against 500). -/
def sampleStore : StoreEntry := { store := sampleStoreInfo, clearances := [cEach, cKg] }

/-- A batch of one store with two clearances, in the list shape. -/
def sampleBatch : ClearanceBatch := Sum.inr [sampleStore]

/-- A batch whose single store contains the malformed clearance. -/
def badBatch : ClearanceBatch :=
  Sum.inr [{ store := sampleStoreInfo, clearances := [cEach, cBad] }]

/-! ### Failure propagation and sorting lemmas -/

theorem concatMapM_none {α : Type} {f : α → Option String} {l : List α} {a : α}
    (ha : a ∈ l) (hf : f a = none) : concatMapM f l = none := by
  induction l with
  | nil => cases ha
  | cons b t ih =>
    rcases List.mem_cons.mp ha with rfl | hmem
    · simp [concatMapM, hf]
    · cases hb : f b with
      | none => simp [concatMapM, hb]
      | some s => simp [concatMapM, hb, ih hmem]

theorem mem_sortClearances {c : RawClearance} {l : List RawClearance} (h : c ∈ l) :
    c ∈ sortClearances l :=
  (List.perm_insertionSort rankDescLE l).mem_iff.mpr h

theorem htmlClearanceBlock_none {c : RawClearance} (h : c.product.description = none) :
    htmlClearanceBlock c = none := by
  simp [htmlClearanceBlock, h]

theorem mdClearanceBlock_none {c : RawClearance} (h : c.product.description = none) :
    mdClearanceBlock c = none := by
  simp [mdClearanceBlock, h]

theorem textClearanceBlock_none {c : RawClearance} (h : c.product.description = none) :
    textClearanceBlock c = none := by
  simp [textClearanceBlock, h]

theorem storeHtml_none {st : StoreEntry} {c : RawClearance} (hc : c ∈ st.clearances)
    (h : c.product.description = none) : storeHtml st = none := by
  have hcm : concatMapM htmlClearanceBlock (sortClearances st.clearances) = none :=
    concatMapM_none (mem_sortClearances hc) (htmlClearanceBlock_none h)
  simp [storeHtml, hcm]

theorem storeMd_none {st : StoreEntry} {c : RawClearance} (hc : c ∈ st.clearances)
    (h : c.product.description = none) : storeMd st = none := by
  have hcm : concatMapM mdClearanceBlock (sortClearances st.clearances) = none :=
    concatMapM_none (mem_sortClearances hc) (mdClearanceBlock_none h)
  simp [storeMd, hcm]

theorem storeText_none {st : StoreEntry} {c : RawClearance} (hc : c ∈ st.clearances)
    (h : c.product.description = none) : storeText st = none := by
  have hcm : concatMapM textClearanceBlock (sortClearances st.clearances) = none :=
    concatMapM_none (mem_sortClearances hc) (textClearanceBlock_none h)
  simp [storeText, hcm]

/-- Claim C1: a batch containing a clearance whose required
`product.description` field is missing makes every rendering entry point
fail fast (raise, modelled as `none`): no output text, no HTML or PDF file
and no Markdown document is produced, so nothing is silently skipped and no
partially blank section is emitted. -/
theorem c1_missing_field_fails :
    ∀ (template pdfEngine : String → String) (nowStamp nowDisplay : String)
      (fn : Option String) (data : ClearanceBatch),
      (∃ st ∈ batchStores data, ∃ c ∈ st.clearances, c.product.description = none) →
      generate_outputs template pdfEngine nowStamp nowDisplay data = none ∧
      export_to_markdown fn nowStamp nowDisplay data = none ∧
      print_clearances template pdfEngine nowStamp nowDisplay data = none := by
  intro template pdfEngine nowStamp nowDisplay fn data hex
  obtain ⟨st, hst, c, hc, hdesc⟩ := hex
  have h1 : concatMapM storeHtml (batchStores data) = none :=
    concatMapM_none hst (storeHtml_none hc hdesc)
  have h2 : concatMapM storeMd (batchStores data) = none :=
    concatMapM_none hst (storeMd_none hc hdesc)
  have hco : htmlContentOf nowDisplay data = none := by simp [htmlContentOf, h1]
  have hgen : generate_outputs template pdfEngine nowStamp nowDisplay data = none := by
    simp [generate_outputs, hco]
  exact ⟨hgen, by simp [export_to_markdown, h2], by simp [print_clearances, hgen]⟩

/-- Witness for C1: the concrete batch whose second clearance misses
`product.description` makes all three entry points fail. -/
theorem c1_witness :
    generate_outputs id id "20240601_1200" "01/06/2024 kl. 12:00" badBatch = none ∧
    export_to_markdown none "20240601_1200" "01/06/2024 kl. 12:00" badBatch = none ∧
    print_clearances id id "20240601_1200" "01/06/2024 kl. 12:00" badBatch = none :=
  c1_missing_field_fails id id "20240601_1200" "01/06/2024 kl. 12:00" none badBatch
    ⟨⟨sampleStoreInfo, [cEach, cBad]⟩, by decide, cBad, by decide, rfl⟩

/-- Claim C8: the renderer treats the single-store dict shape and the
one-element list shape identically: every output generator first normalizes
the batch through `batchStores` (wrapping a single store in a one-element
list) and produces exactly the same result on both shapes. -/
theorem c8_batch_shape_uniform :
    ∀ (template pdfEngine : String → String) (nowStamp nowDisplay : String)
      (fn : Option String) (st : StoreEntry),
      batchStores (Sum.inl st) = batchStores (Sum.inr [st]) ∧
      generate_outputs template pdfEngine nowStamp nowDisplay (Sum.inl st) =
        generate_outputs template pdfEngine nowStamp nowDisplay (Sum.inr [st]) ∧
      export_to_markdown fn nowStamp nowDisplay (Sum.inl st) =
        export_to_markdown fn nowStamp nowDisplay (Sum.inr [st]) ∧
      print_clearances template pdfEngine nowStamp nowDisplay (Sum.inl st) =
        print_clearances template pdfEngine nowStamp nowDisplay (Sum.inr [st]) :=
  fun _ _ _ _ _ _ => ⟨rfl, rfl, rfl, rfl⟩

theorem divInt_thousand (q : ℚ) : Rat.divInt (1000 * q.num) (q.den : Int) = 1000 * q := by
  rw [Rat.divInt_eq_div]
  push_cast
  rw [mul_div_assoc, Rat.num_div_den]

theorem sortClearances_idem (l : List RawClearance) :
    sortClearances (sortClearances l) = sortClearances l :=
  List.Sorted.insertionSort_eq (List.sorted_insertionSort rankDescLE l)

/-- Claim C3: the ranking key is the stock multiplied by 1000 for the
case-insensitive unit `kg` and the stock unchanged for every other unit;
each store's clearances are rendered in descending key order by a stable
sort (equal keys keep input order, and the sorted list is a permutation of
the input), and each of the three outputs presents exactly this sorted
order. -/
theorem c3_rank_and_sort_spec :
    (∀ c : RawClearance, asciiLower c.offer.stockUnit = "kg" →
      get_sort_key c = 1000 * c.offer.stock) ∧
    (∀ c : RawClearance, asciiLower c.offer.stockUnit ≠ "kg" →
      get_sort_key c = c.offer.stock) ∧
    (∀ l : List RawClearance,
      List.Sorted (fun a b => get_sort_key b ≤ get_sort_key a) (sortClearances l)) ∧
    (∀ (l : List RawClearance) (a b : RawClearance), get_sort_key a = get_sort_key b →
      List.Sublist [a, b] l → List.Sublist [a, b] (sortClearances l)) ∧
    (∀ l : List RawClearance, List.Perm (sortClearances l) l) ∧
    (∀ st : StoreEntry,
      storeHtml st =
        storeHtml { store := st.store, clearances := sortClearances st.clearances } ∧
      storeMd st =
        storeMd { store := st.store, clearances := sortClearances st.clearances } ∧
      storeText st =
        storeText { store := st.store, clearances := sortClearances st.clearances }) := by
  refine ⟨?_, ?_, ?_, ?_, ?_, ?_⟩
  · intro c h
    rw [show get_sort_key c =
      Rat.divInt (1000 * c.offer.stock.num) (c.offer.stock.den : Int) from by
        simp [get_sort_key, h]]
    exact divInt_thousand c.offer.stock
  · intro c h
    simp [get_sort_key, h]
  · intro l
    exact List.sorted_insertionSort rankDescLE l
  · intro l a b hk hsub
    exact List.pair_sublist_insertionSort (le_of_eq hk.symm) hsub
  · intro l
    exact List.perm_insertionSort rankDescLE l
  · intro st
    refine ⟨?_, ?_, ?_⟩
    · simp [storeHtml, sortClearances_idem]
    · simp [storeMd, sortClearances_idem]
    · simp [storeText, sortClearances_idem]

/-- Witness for C3: the key of the concrete kg clearance is its stock
scaled by 1000, the key of the `each` clearance is its stock, and sorting
the sample pair puts the kg clearance first. -/
theorem c3_witness :
    get_sort_key cKg = 1000 * cKg.offer.stock ∧
    get_sort_key cEach = cEach.offer.stock ∧
    sortClearances [cEach, cKg] = [cKg, cEach] :=
  ⟨c3_rank_and_sort_spec.1 cKg (by decide),
   c3_rank_and_sort_spec.2.1 cEach (by decide),
   by decide⟩

/-! ### C2: what the render entry points actually produce -/

theorem generate_outputs_files {template pdfEngine : String → String}
    {nowStamp nowDisplay : String} {data : ClearanceBatch} {r : RenderedFiles}
    (hr : generate_outputs template pdfEngine nowStamp nowDisplay data = some r) :
    r.files.map Prod.fst =
      ["output/tilbud_" ++ nowStamp ++ ".html", "output/tilbud_" ++ nowStamp ++ ".pdf"] ∧
    r.ret = ("output/tilbud_" ++ nowStamp ++ ".html",
             "output/tilbud_" ++ nowStamp ++ ".pdf") := by
  cases h : htmlContentOf nowDisplay data with
  | none => simp [generate_outputs, h] at hr
  | some content =>
    simp only [generate_outputs, h, Option.bind_eq_bind, Option.some_bind,
      Option.pure_def, Option.some.injEq] at hr
    subst hr
    exact ⟨rfl, rfl⟩

theorem print_clearances_gen {template pdfEngine : String → String}
    {nowStamp nowDisplay : String} {data : ClearanceBatch} {t : String × RenderedFiles}
    (ht : print_clearances template pdfEngine nowStamp nowDisplay data = some t) :
    generate_outputs template pdfEngine nowStamp nowDisplay data = some t.2 := by
  cases hgen : generate_outputs template pdfEngine nowStamp nowDisplay data with
  | none => simp [print_clearances, hgen] at ht
  | some gen =>
    cases hbody : concatMapM storeText (batchStores data) with
    | none => simp [print_clearances, hgen, hbody] at ht
    | some body =>
      simp only [print_clearances, hgen, hbody, Option.bind_eq_bind, Option.some_bind,
        Option.pure_def, Option.some.injEq] at ht
      rw [← ht]

/-- Claim C2 counterexample: the claim says every invocation of the render
entry point also produces a Markdown document and returns a `markdownPath`,
but a concrete successful invocation of `print_clearances` writes exactly
the HTML file and the PDF file - no Markdown file at all. -/
theorem c2_counterexample :
    (print_clearances id id "20240601_1200" "01/06/2024 kl. 12:00" sampleBatch).map
        (fun r => r.2.files.map Prod.fst) =
      some ["output/tilbud_20240601_1200.html", "output/tilbud_20240601_1200.pdf"] := by
  decide

/-- Claim C2 (amended): the render entry point `print_clearances` produces
the text summary plus exactly the timestamped HTML and PDF files (never a
Markdown path); the Markdown document comes from the separate entry point
`export_to_markdown` (which nothing in the program calls), and on a batch of
one store with two clearances the Markdown content has exactly 2 clearance
headings while `print_clearances` succeeds with all its outputs. -/
theorem c2_render_outputs_spec :
    (∀ (template pdfEngine : String → String) (nowStamp nowDisplay : String)
       (data : ClearanceBatch) (r : RenderedFiles),
      generate_outputs template pdfEngine nowStamp nowDisplay data = some r →
      r.files.map Prod.fst =
        ["output/tilbud_" ++ nowStamp ++ ".html", "output/tilbud_" ++ nowStamp ++ ".pdf"] ∧
      r.ret = ("output/tilbud_" ++ nowStamp ++ ".html",
               "output/tilbud_" ++ nowStamp ++ ".pdf")) ∧
    (∀ (template pdfEngine : String → String) (nowStamp nowDisplay : String)
       (data : ClearanceBatch) (t : String × RenderedFiles),
      print_clearances template pdfEngine nowStamp nowDisplay data = some t →
      t.2.files.map Prod.fst =
        ["output/tilbud_" ++ nowStamp ++ ".html", "output/tilbud_" ++ nowStamp ++ ".pdf"]) ∧
    ((export_to_markdown none "20240601_1200" "01/06/2024 kl. 12:00" sampleBatch).map
        (fun r => (countSub "### ".data r.2.data, r.1)) =
      some (2, "tilbud_20240601_1200.md")) ∧
    (print_clearances id id "20240601_1200" "01/06/2024 kl. 12:00" sampleBatch).isSome =
      true := by
  refine ⟨?_, ?_, by decide, by decide⟩
  · intro template pdfEngine nowStamp nowDisplay data r hr
    exact generate_outputs_files hr
  · intro template pdfEngine nowStamp nowDisplay data t ht
    exact (generate_outputs_files (print_clearances_gen ht)).1

/-- Witness for C2: the two file-list clauses applied to the successful
concrete invocation on the sample batch. -/
theorem c2_witness :
    (generate_outputs id id "20240601_1200" "01/06/2024 kl. 12:00" sampleBatch).map
        (fun r => r.files.map Prod.fst) =
      some ["output/tilbud_20240601_1200.html", "output/tilbud_20240601_1200.pdf"] := by
  cases hgen : generate_outputs id id "20240601_1200" "01/06/2024 kl. 12:00" sampleBatch with
  | none => exact absurd hgen (by decide)
  | some r =>
    have h := (c2_render_outputs_spec.1 id id "20240601_1200" "01/06/2024 kl. 12:00"
      sampleBatch r hgen).1
    simp [h]

/-! ### C9: which URL each output embeds -/

/-- Python `sub in s` on Lean strings. -/
def strContainsSub (s sub : String) : Bool := containsSub s.data sub.data

theorem isPrefixL_extend {m s : List Char} (h : isPrefixL m s = true) (t : List Char) :
    isPrefixL m (s ++ t) = true := by
  induction m generalizing s with
  | nil => rfl
  | cons a as ih =>
    cases s with
    | nil => simp [isPrefixL] at h
    | cons b bs =>
      simp only [isPrefixL, Bool.and_eq_true, beq_iff_eq] at h
      simp only [List.cons_append, isPrefixL, Bool.and_eq_true, beq_iff_eq]
      exact ⟨h.1, ih h.2⟩

theorem containsSub_of_head {m t : List Char} (h : isPrefixL m t = true) :
    containsSub t m = true := by
  cases t with
  | nil =>
    cases m with
    | nil => rfl
    | cons a b => simp [isPrefixL] at h
  | cons c u => simp [containsSub, h]

theorem containsSub_self (s : List Char) : containsSub s s = true := by
  have h := isPrefixL_self_append s []
  rw [List.append_nil] at h
  exact containsSub_of_head h

theorem containsSub_append_left {m : List Char} :
    ∀ {x : List Char}, containsSub x m = true → ∀ t, containsSub (x ++ t) m = true := by
  intro x
  induction x with
  | nil =>
    intro h t
    have hm : m = [] := by
      cases m with
      | nil => rfl
      | cons a b => simp [containsSub, isPrefixL] at h
    rw [hm]
    exact containsSub_nilsep _
  | cons c u ih =>
    intro h t
    simp only [containsSub, Bool.or_eq_true] at h
    rcases h with h | h
    · simp only [List.cons_append, containsSub, Bool.or_eq_true]
      exact Or.inl (isPrefixL_extend h t)
    · simp only [List.cons_append, containsSub, Bool.or_eq_true]
      exact Or.inr (ih h t)

theorem containsSub_append_right {m t : List Char} (h : containsSub t m = true) :
    ∀ x, containsSub (x ++ t) m = true := by
  intro x
  induction x with
  | nil => exact h
  | cons c u ih => simp [containsSub, ih]

theorem get_optimized_image_url_ne_empty {im : String} (h : im ≠ "") :
    get_optimized_image_url im ≠ "" := by
  cases optimizeChars_shape im.data with
  | inl he =>
    show (⟨optimizeChars im.data⟩ : String) ≠ ""
    rw [he]
    exact h
  | inr hr =>
    obtain ⟨a, _, _, heq⟩ := hr
    show (⟨optimizeChars im.data⟩ : String) ≠ ""
    rw [heq]
    intro hc
    have hdat : canonPrefix ++ a = [] := congrArg String.data hc
    rcases List.append_eq_nil.mp hdat with ⟨h1, _⟩
    exact absurd h1 (by decide)

/-- Claim C9 counterexample: the claim says the Markdown image link is the
Normalizer's result, but the Markdown block of a clearance with a legacy
image URL contains the raw URL and does not contain the normalized one. -/
theorem c9_counterexample :
    (mdClearanceBlock cKg).map
        (fun s => (containsSub s.data ("[Se billede](" ++ sampleImageUrl ++ ")").data,
          containsSub s.data (get_optimized_image_url sampleImageUrl).data)) =
      some (true, false) := by
  decide

/-- Claim C9 (amended): an image is rendered only when the product has a
non-empty image field; the HTML `<img>` source is the Normalizer's result
applied to the raw image URL, while the Markdown image link uses the raw
image URL itself (the Markdown export never calls the Normalizer); without
an image the HTML block carries the grey placeholder box. -/
theorem c9_image_resolution_spec :
    (∀ (c : RawClearance) (im s : String), c.product.image = some im → im ≠ "" →
      htmlClearanceBlock c = some s →
      strContainsSub s ("<img src=\"" ++ get_optimized_image_url im ++ "\"") = true) ∧
    (∀ (c : RawClearance) (im s : String), c.product.image = some im → im ≠ "" →
      mdClearanceBlock c = some s →
      strContainsSub s ("[Se billede](" ++ im ++ ")") = true) ∧
    (∀ (c : RawClearance) (s : String), c.product.image = none →
      htmlClearanceBlock c = some s →
      strContainsSub s "<div style=\"width:100px;height:100px;background:#eee;\"></div>\n" =
        true) := by
  refine ⟨?_, ?_, ?_⟩
  · intro c im s him hne hblock
    have hurl : imageUrlOf c = get_optimized_image_url im := by
      simp [imageUrlOf, him, hne]
    have hurlne : imageUrlOf c ≠ "" := by
      rw [hurl]
      exact get_optimized_image_url_ne_empty hne
    cases hd : c.product.description with
    | none => simp [htmlClearanceBlock, hd] at hblock
    | some desc =>
      cases hv : format_datetime c.offer.endTime with
      | none => simp [htmlClearanceBlock, hd, hv] at hblock
      | some validity =>
        simp only [htmlClearanceBlock, hd, hv, Option.bind_eq_bind, Option.some_bind,
          Option.pure_def, Option.some.injEq, ne_eq, hurlne, not_false_eq_true,
          if_true, ite_true] at hblock
        subst hblock
        rw [← hurl]
        simp only [strContainsSub, String.data_append]
        iterate 24 refine containsSub_append_left ?_ _
        refine containsSub_append_right ?_ _
        iterate 3 refine containsSub_append_left ?_ _
        exact containsSub_self _
  · intro c im s him hne hblock
    have htr : pyTruthyStrOpt (some im) = true := by
      simp [pyTruthyStrOpt, hne]
    cases hd : c.product.description with
    | none => simp [mdClearanceBlock, hd] at hblock
    | some desc =>
      cases hv : format_datetime c.offer.endTime with
      | none => simp [mdClearanceBlock, hd, hv] at hblock
      | some validity =>
        simp only [mdClearanceBlock, hd, hv, Option.bind_eq_bind, Option.some_bind,
          Option.pure_def, Option.some.injEq, him, htr, if_true, ite_true,
          Option.getD_some] at hblock
        subst hblock
        simp only [strContainsSub, String.data_append]
        refine containsSub_append_left ?_ _
        refine containsSub_append_right ?_ _
        refine containsSub_append_left ?_ _
        refine containsSub_append_right ?_ _
        exact containsSub_self _
  · intro c s him hblock
    have hurl0 : imageUrlOf c = "" := by simp [imageUrlOf, him]
    cases hd : c.product.description with
    | none => simp [htmlClearanceBlock, hd] at hblock
    | some desc =>
      cases hv : format_datetime c.offer.endTime with
      | none => simp [htmlClearanceBlock, hd, hv] at hblock
      | some validity =>
        simp only [htmlClearanceBlock, hd, hv, Option.bind_eq_bind, Option.some_bind,
          Option.pure_def, Option.some.injEq, hurl0, ne_eq, not_true_eq_false,
          if_false, ite_false] at hblock
        subst hblock
        simp only [strContainsSub, String.data_append]
        iterate 24 refine containsSub_append_left ?_ _
        refine containsSub_append_right ?_ _
        exact containsSub_self _

/-- Witness for C9: the Markdown clause applied at the concrete legacy-image
clearance: its block embeds the raw URL. -/
theorem c9_witness :
    (mdClearanceBlock cKg).map
        (fun s => strContainsSub s ("[Se billede](" ++ sampleImageUrl ++ ")")) = some true := by
  cases hb : mdClearanceBlock cKg with
  | none => exact absurd hb (by decide)
  | some s =>
    have h := c9_image_resolution_spec.2.1 cKg sampleImageUrl s rfl (by decide) hb
    simp [h]
